import Mathlib

/-!
Verification of the srsENB control-plane core (srsLTE eNodeB stack).

This file shallowly embeds the parts of the C++ source relevant to the
checked specification claims:

* the PUCCH Scheduling-Request / periodic-CQI resource grid
  (`rrc::ue::sr_allocate`, `sr_free`, `cqi_allocate`, `cqi_free` in
  `srsenb/src/stack/rrc/rrc.cc`),
* security-algorithm selection (`rrc::ue::select_security_algorithms`),
* the RRC transaction-id counter (`rrc::ue::parse_ul_dcch` and the
  `send_*` helpers),
* uplink MAC PDU processing (`ue::process_pdu`, `ue::process_ce` in
  `srsenb/src/stack/mac/ue.cc`),
* softbuffer lookup (`ue::get_rx_softbuffer`, `ue::get_tx_softbuffer`),
* the measurement-configuration diff (modelled from the specification,
  since `var_meas_cfg_t::compute_diff_meas_cfg` is only exercised by the
  test `srsenb/test/upper/rrc_mobility_test.cc` here).

Machine integers of the source are modelled as `Nat` with explicit
`% 2^w` where a narrowing store occurs.
-/

namespace SrsEnb

/-! ## PUCCH resource grid (rrc.cc, `sr_sched` / `cqi_sched`)

The grid `nof_users[prb_idx][sf_idx]` is a two-dimensional array of
unsigned counters; we model it as a total function `Nat → Nat → Nat`.
-/

/-- The two-dimensional user counter array `nof_users` of `pucch_idx_sched_t`. -/
def Grid : Type := Nat → Nat → Nat

/-- `UINT32_MAX`, the initial value of `min_users` in the slot search. -/
def UINT32_MAX : Nat := 4294967295

/-- Cell-wide PUCCH parameters read by `sr_allocate` / `cqi_allocate`:
cyclic prefix kind (`cfg.cell.cp`), `delta_pucch_shift` and `ncs_an` from
SIB2 `pucch_cfg_common`. -/
structure PucchCommonCfg where
  cpIsNorm : Bool
  deltaPucchShift : Nat
  ncsAn : Nat

/-- Geometry of one grid (`rrc_cfg_sr_t` / `rrc_cfg_cqi_t`): number of PRB
slots, number of subframe slots, and the subframe offset table
`sf_mapping`. -/
structure PucchGridCfg where
  nofPrb : Nat
  nofSubframes : Nat
  sfMapping : Nat → Nat

/-- `max_users = 12 * c / delta_pucch_shift` with `c = 3` for normal CP and
`2` for extended CP (rrc.cc:2119-2122). -/
def maxUsers (c : PucchCommonCfg) : Nat :=
  12 * (if c.cpIsNorm then 3 else 2) / c.deltaPucchShift

/-- The (prb, sf) iteration order of the double loop in
`sr_allocate` / `cqi_allocate`: `i` outer over PRB slots, `j` inner over
subframe slots. -/
def slotList (cfg : PucchGridCfg) : List (Nat × Nat) :=
  (List.range cfg.nofPrb).flatMap fun i =>
    (List.range cfg.nofSubframes).map fun j => (i, j)

/-- The slot-search loop (rrc.cc:2125-2135): starting from
`i_min = j_min = 0`, `min_users = UINT32_MAX`, keep the first slot whose
counter is strictly below the minimum seen so far. Returns
`(i_min, j_min, min_users)`. -/
def findMinSlot (cfg : PucchGridCfg) (grid : Grid) : Nat × Nat × Nat :=
  (slotList cfg).foldl
    (fun acc p => if grid p.1 p.2 < acc.2.2 then (p.1, p.2, grid p.1 p.2) else acc)
    (0, 0, UINT32_MAX)

/-- Increment the counter of one slot (the `nof_users[i_min][j_min]++` of a
successful allocation). -/
def bumpSlot (grid : Grid) (i j : Nat) : Grid :=
  fun a b => if a = i ∧ b = j then grid a b + 1 else grid a b

/-- Decrement the counter of one slot. -/
def decSlot (grid : Grid) (i j : Nat) : Grid :=
  fun a b => if a = i ∧ b = j then grid a b - 1 else grid a b

/-- The per-user SR/CQI resource bookkeeping written by a successful
allocation (`sr_sched_prb_idx`, `sr_sched_sf_idx`, `sr_allocated`, and the
analogous `cqi_*` fields). -/
structure ResHandle where
  allocated : Bool
  prbIdx : Nat
  sfIdx : Nat

/-- Result of a successful `sr_allocate`: the outputs `*I_sr` and
`*N_pucch_sr`, the updated handle fields and the updated grid. -/
structure SrAllocResult where
  i_sr : Nat
  n_pucch : Nat
  handle : ResHandle
  grid : Grid

/-- `rrc::ue::sr_allocate(period, I_sr, N_pucch_sr)` (rrc.cc:2117-2176).
Returns `none` where the C++ returns `-1`. `*I_sr` is a `uint8_t` store and
`*N_pucch_sr` a `uint16_t` store, hence the `% 256` / `% 65536`. -/
def sr_allocate (c : PucchCommonCfg) (cfg : PucchGridCfg) (grid : Grid)
    (period : Nat) : Option SrAllocResult :=
  let max_users := maxUsers c
  let m := findMinSlot cfg grid
  let i_min := m.1
  let j_min := m.2.1
  if grid i_min j_min > max_users then
    none
  else if period ≠ 5 ∧ period ≠ 10 ∧ period ≠ 20 ∧ period ≠ 40 ∧ period ≠ 80 then
    none
  else if cfg.sfMapping j_min < period then
    let i_sr := (period - 5 + cfg.sfMapping j_min) % 256
    let n0 := (i_min * max_users + grid i_min j_min) % 65536
    let n_pucch := if c.ncsAn ≠ 0 then (n0 + c.ncsAn) % 65536 else n0
    some { i_sr := i_sr
           n_pucch := n_pucch
           handle := { allocated := true, prbIdx := i_min, sfIdx := j_min }
           grid := bumpSlot grid i_min j_min }
  else
    none

/-- `rrc::ue::sr_free()` (rrc.cc:2096-2109): if the handle is allocated and
the owning counter is positive, decrement it; a zero counter is only
warned about and left at zero. The `sr_allocated` flag is NOT cleared by
the source, so the function returns only the updated grid. -/
def sr_free (h : ResHandle) (grid : Grid) : Grid :=
  if h.allocated then
    if grid h.prbIdx h.sfIdx > 0 then decSlot grid h.prbIdx h.sfIdx else grid
  else grid

/-- Result of a successful `cqi_allocate`: the outputs `*pmi_idx` and
`*n_pucch`, the updated handle fields and the updated grid. -/
structure CqiAllocResult where
  pmi_idx : Nat
  n_pucch : Nat
  handle : ResHandle
  grid : Grid

/-- `rrc::ue::cqi_allocate(period, pmi_idx, n_pucch)` (rrc.cc:2199-2273).
Both outputs are `uint16_t` stores. -/
def cqi_allocate (c : PucchCommonCfg) (cfg : PucchGridCfg) (grid : Grid)
    (period : Nat) : Option CqiAllocResult :=
  let max_users := maxUsers c
  let m := findMinSlot cfg grid
  let i_min := m.1
  let j_min := m.2.1
  if grid i_min j_min > max_users then
    none
  else if period ≠ 2 ∧ period ≠ 5 ∧ period ≠ 10 ∧ period ≠ 20 ∧ period ≠ 40 ∧
          period ≠ 80 ∧ period ≠ 160 ∧ period ≠ 32 ∧ period ≠ 64 ∧ period ≠ 128 then
    none
  else if cfg.sfMapping j_min < period then
    let pmi_idx :=
      if period ≠ 32 ∧ period ≠ 64 ∧ period ≠ 128 then
        if period > 2 then (period - 3 + cfg.sfMapping j_min) % 65536
        else cfg.sfMapping j_min % 65536
      else if period = 32 then (318 + cfg.sfMapping j_min) % 65536
      else if period = 64 then (350 + cfg.sfMapping j_min) % 65536
      else (414 + cfg.sfMapping j_min) % 65536
    let n0 := (i_min * max_users + grid i_min j_min) % 65536
    let n_pucch := if c.ncsAn ≠ 0 then (n0 + c.ncsAn) % 65536 else n0
    some { pmi_idx := pmi_idx
           n_pucch := n_pucch
           handle := { allocated := true, prbIdx := i_min, sfIdx := j_min }
           grid := bumpSlot grid i_min j_min }
  else
    none

/-- `rrc::ue::cqi_free()` (rrc.cc:2178-2191): same guarded decrement as
`sr_free`, on the CQI grid; `cqi_allocated` is likewise not cleared. -/
def cqi_free (h : ResHandle) (grid : Grid) : Grid :=
  if h.allocated then
    if grid h.prbIdx h.sfIdx > 0 then decSlot grid h.prbIdx h.sfIdx else grid
  else grid

/-! ## Security algorithm selection (rrc.cc, `rrc::ue::select_security_algorithms`) -/

/-- Ciphering algorithm identifiers (`srslte::CIPHERING_ALGORITHM_ID_*`). -/
inductive CipherAlg
  | eea0
  | eea1
  | eea2
  | eea3
deriving DecidableEq

/-- Integrity algorithm identifiers (`srslte::INTEGRITY_ALGORITHM_ID_*`). -/
inductive IntegAlg
  | eia0
  | eia1
  | eia2
  | eia3
deriving DecidableEq

/-- The UE security capability bits tested by
`security_capabilities.encryption_algorithms.get(len - id)` and
`integrity_protection_algorithms.get(len - id)`: one support bit per
non-null algorithm. -/
structure SecCapabilities where
  eea1 : Bool
  eea2 : Bool
  eea3 : Bool
  eia1 : Bool
  eia2 : Bool
  eia3 : Bool

/-- Whether one iteration of the EEA preference loop selects the algorithm
(rrc.cc:1943-1994): EEA0 is always accepted; EEA1/2/3 require the
corresponding capability bit. -/
def cipherSelectable (caps : SecCapabilities) : CipherAlg → Bool
  | .eea0 => true
  | .eea1 => caps.eea1
  | .eea2 => caps.eea2
  | .eea3 => caps.eea3

/-- Whether one iteration of the EIA preference loop selects the algorithm
(rrc.cc:1996-2041): EIA0 is skipped ("Null integrity is not supported");
EIA1/2/3 require the corresponding capability bit. -/
def integSelectable (caps : SecCapabilities) : IntegAlg → Bool
  | .eia0 => false
  | .eia1 => caps.eia1
  | .eia2 => caps.eia2
  | .eia3 => caps.eia3

/-- The EEA preference-list loop with its early break once
`enc_algo_found` is set. -/
def selectCipher (caps : SecCapabilities) : List CipherAlg → Option CipherAlg
  | [] => none
  | a :: rest => if cipherSelectable caps a then some a else selectCipher caps rest

/-- The EIA preference-list loop with its early break once
`integ_algo_found` is set. -/
def selectInteg (caps : SecCapabilities) : List IntegAlg → Option IntegAlg
  | [] => none
  | a :: rest => if integSelectable caps a then some a else selectInteg caps rest

/-- `rrc::ue::select_security_algorithms()` (rrc.cc:1928-2050): run both
preference loops; the function returns `false` (here `none`) iff either
loop failed to find an algorithm. -/
def select_security_algorithms (eeaPref : List CipherAlg) (eiaPref : List IntegAlg)
    (caps : SecCapabilities) : Option (CipherAlg × IntegAlg) :=
  match selectCipher caps eeaPref, selectInteg caps eiaPref with
  | some c, some i => some (c, i)
  | _, _ => none

/-! ## RRC transaction identifier

Every outgoing message that requires a reply stamps
`(transaction_id++) % 4` (rrc.cc:1440, 1445, 1594, 1648, 1698, 1833,
1892, 1911), while `parse_ul_dcch` resets `transaction_id = 0` on every
received UL-DCCH message (rrc.cc:1092). -/

/-- The two events of the per-user transaction-id state machine. -/
inductive TxEvent
  | sendMsg
  | recvUlDcch

/-- One step: a send stamps `tid % 4` into the message and increments the
counter; a received UL-DCCH message resets the counter to zero and stamps
nothing. -/
def txStep (tid : Nat) : TxEvent → Nat × Option Nat
  | .sendMsg => (tid + 1, some (tid % 4))
  | .recvUlDcch => (0, none)

/-- The transaction ids carried by the outgoing messages of an event
trace, starting from counter value `tid`. -/
def txIds (tid : Nat) : List TxEvent → List Nat
  | [] => []
  | e :: es =>
    match txStep tid e with
    | (tid2, some i) => i :: txIds tid2 es
    | (tid2, none) => txIds tid2 es

/-- The property asserted of a list of stamped transaction ids: each id is
the successor of the previous one, modulo 4. -/
def ConsecutiveMod4 (l : List Nat) : Prop :=
  ∀ k, (hk : k + 1 < l.length) →
    l.get ⟨k + 1, hk⟩ = (l.get ⟨k, Nat.lt_of_succ_lt hk⟩ + 1) % 4

/-! ## Uplink MAC PDU processing (ue.cc, `ue::process_pdu` / `ue::process_ce`) -/

/-- UL-SCH MAC control elements as discriminated by
`ue::process_ce` (ue.cc:337-385). For the short/truncated BSR,
`get_bsr` either yields a logical-channel-group index with its byte
count, or fails (`idx == -1`), modelled by `Option`. -/
inductive UlCe
  | phr (value : Int)
  | crnti (oldRnti : Nat)
  | truncBsr (lcg : Option Nat) (bytes : Nat)
  | shortBsr (lcg : Option Nat) (bytes : Nat)
  | longBsr (b0 b1 b2 b3 : Nat)
  | padding
  | invalid

/-- One subheader of a parsed UL MAC PDU: an SDU with its LCID and payload
bytes, or a control element. -/
inductive SubHeader
  | sdu (lcid : Nat) (payload : List Nat)
  | ce (c : UlCe)

/-- Effect record of `ue::process_ce` on one control element. -/
structure CeResult where
  rnti : Nat
  updUserCall : Option (Nat × Nat)
  ulBsrCalls : List (Nat × Nat)
  ulPhrCall : Option Int
  is_bsr : Bool

/-- `ue::process_ce(subh)` (ue.cc:337-385). `ueExists` is the scheduler
predicate `sched->ue_exists`; on a C-RNTI CE whose old RNTI still exists,
`rrc->upd_user(rnti, old_rnti)` is invoked and the `rnti` field
reassigned, otherwise only an error is logged. The result records the
calls into the scheduler/RRC and the `is_bsr` return value. -/
def process_ce (ueExists : Nat → Bool) (rnti : Nat) : UlCe → CeResult
  | .phr v =>
    { rnti := rnti, updUserCall := none, ulBsrCalls := [], ulPhrCall := some v, is_bsr := false }
  | .crnti oldRnti =>
    if ueExists oldRnti then
      { rnti := oldRnti, updUserCall := some (rnti, oldRnti), ulBsrCalls := [],
        ulPhrCall := none, is_bsr := false }
    else
      { rnti := rnti, updUserCall := none, ulBsrCalls := [], ulPhrCall := none, is_bsr := false }
  | .truncBsr lcg bytes =>
    match lcg with
    | none => { rnti := rnti, updUserCall := none, ulBsrCalls := [], ulPhrCall := none,
                is_bsr := false }
    | some idx => { rnti := rnti, updUserCall := none, ulBsrCalls := [(idx, bytes)],
                    ulPhrCall := none, is_bsr := true }
  | .shortBsr lcg bytes =>
    match lcg with
    | none => { rnti := rnti, updUserCall := none, ulBsrCalls := [], ulPhrCall := none,
                is_bsr := false }
    | some idx => { rnti := rnti, updUserCall := none, ulBsrCalls := [(idx, bytes)],
                    ulPhrCall := none, is_bsr := true }
  | .longBsr b0 b1 b2 b3 =>
    { rnti := rnti, updUserCall := none, ulBsrCalls := [(0, b0), (1, b1), (2, b2), (3, b3)],
      ulPhrCall := none, is_bsr := true }
  | .padding =>
    { rnti := rnti, updUserCall := none, ulBsrCalls := [], ulPhrCall := none, is_bsr := false }
  | .invalid =>
    { rnti := rnti, updUserCall := none, ulBsrCalls := [], ulPhrCall := none, is_bsr := false }

/-- The byte sum computed for LCID 0 payloads (ue.cc:240-244); the PDU is
discarded iff the sum is zero. -/
def byteSum (payload : List Nat) : Nat :=
  payload.foldl (fun a b => a + b) 0

/-- The contention-resolution-identity copy loop (ue.cc:276-280):
`ue_cri_ptr[nbytes - i - 1] = pkt_ptr[i]` for `i < 6`, i.e. the first six
payload bytes written in reverse order. The identity is modelled as its
six memory bytes. -/
def writeConres (old : Fin 6 → Nat) (p : List Nat) : Fin 6 → Nat :=
  (List.finRange 6).foldl (fun c i => Function.update c (5 - i) (p.getD (i : Nat) 0)) old

/-- Accumulator of the first subheader pass of `ue::process_pdu`
(ue.cc:232-286), which handles only SDU subheaders. -/
structure Pass1State where
  mostData : Int
  lcidMostData : Nat
  conresId : Fin 6 → Nat
  rlcWrites : List (Nat × List Nat)
  activityNotices : Nat

/-- Processing of one SDU subheader in the first pass of
`ue::process_pdu`: routing decision (ue.cc:238-249), RLC delivery
(ue.cc:251-256), activity notification for payloads above 64 bytes
(ue.cc:262-265), most-data tracking (ue.cc:267-270), and the
contention-resolution copy for routed LCID-0 SDUs of at least 6 bytes
(ue.cc:272-284). The source updates each field once, in this order, so
the sequential updates are written as one record construction. -/
def sduStep (st : Pass1State) (lcid : Nat) (payload : List Nat) : Pass1State :=
  let route := ¬(lcid = 0 ∧ byteSum payload = 0)
  { mostData :=
      if (payload.length : Int) > st.mostData then (payload.length : Int) else st.mostData
    lcidMostData :=
      if (payload.length : Int) > st.mostData then lcid else st.lcidMostData
    conresId :=
      if lcid = 0 ∧ route ∧ payload.length ≥ 6 then writeConres st.conresId payload
      else st.conresId
    rlcWrites :=
      if route then st.rlcWrites ++ [(lcid, payload)] else st.rlcWrites
    activityNotices :=
      if payload.length > 64 then st.activityNotices + 1 else st.activityNotices }

/-- The first pass acts on SDU subheaders only. -/
def pass1Step (st : Pass1State) : SubHeader → Pass1State
  | .sdu lcid payload => sduStep st lcid payload
  | .ce _ => st

/-- First pass of `ue::process_pdu`: fold `pass1Step` over the
subheaders (`most_data` starts at `-99`, `lcid_most_data` at `0`). -/
def pass1 (conres0 : Fin 6 → Nat) (hs : List SubHeader) : Pass1State :=
  hs.foldl pass1Step
    { mostData := -99, lcidMostData := 0, conresId := conres0,
      rlcWrites := [], activityNotices := 0 }

/-- Accumulator of the second subheader pass of `ue::process_pdu`
(ue.cc:289-297), which handles only control elements. -/
structure Pass2State where
  rnti : Nat
  bsrReceived : Bool
  updUserCalls : List (Nat × Nat)
  ulBsrCalls : List (Nat × Nat)
  ulPhrCalls : List Int

/-- The second pass acts on CE subheaders only: run `process_ce`,
accumulate `bsr_received |= process_ce(...)` and the emitted calls; the
`rnti` field threads through C-RNTI reassignment. -/
def pass2Step (ueExists : Nat → Bool) (st : Pass2State) : SubHeader → Pass2State
  | .sdu _ _ => st
  | .ce c =>
    let r := process_ce ueExists st.rnti c
    { rnti := r.rnti
      bsrReceived := st.bsrReceived || r.is_bsr
      updUserCalls := st.updUserCalls ++ (r.updUserCall.map (fun u => [u])).getD []
      ulBsrCalls := st.ulBsrCalls ++ r.ulBsrCalls
      ulPhrCalls := st.ulPhrCalls ++ (r.ulPhrCall.map (fun u => [u])).getD [] }

/-- Second pass of `ue::process_pdu` (ue.cc:289-297). -/
def pass2 (ueExists : Nat → Bool) (rnti0 : Nat) (hs : List SubHeader) : Pass2State :=
  hs.foldl (pass2Step ueExists)
    { rnti := rnti0, bsrReceived := false, updUserCalls := [], ulBsrCalls := [], ulPhrCalls := [] }

/-- Combined observable outcome of `ue::process_pdu`. -/
structure ProcessPduResult where
  rnti : Nat
  conresId : Fin 6 → Nat
  rlcWrites : List (Nat × List Nat)
  activityNotices : Nat
  updUserCalls : List (Nat × Nat)
  ulBsrCalls : List (Nat × Nat)
  ulPhrCalls : List Int
  bsrReceived : Bool
  syntheticBsr : Option (Nat × Nat × Nat)

/-- `ue::process_pdu` (ue.cc:215-307) on an already-parsed subheader
list: the SDU pass, then the CE pass, then the synthetic-BSR rule
(ue.cc:299-304): if no BSR was received and `lcid_most_data > 2`, call
`sched->ul_buffer_add(rnti, lcid_most_data, 256)`. -/
def process_pdu (ueExists : Nat → Bool) (rnti0 : Nat) (conres0 : Fin 6 → Nat)
    (hs : List SubHeader) : ProcessPduResult :=
  let p1 := pass1 conres0 hs
  let p2 := pass2 ueExists rnti0 hs
  { rnti := p2.rnti
    conresId := p1.conresId
    rlcWrites := p1.rlcWrites
    activityNotices := p1.activityNotices
    updUserCalls := p2.updUserCalls
    ulBsrCalls := p2.ulBsrCalls
    ulPhrCalls := p2.ulPhrCalls
    bsrReceived := p2.bsrReceived
    syntheticBsr :=
      if ¬p2.bsrReceived ∧ p1.lcidMostData > 2 then some (p2.rnti, p1.lcidMostData, 256)
      else none }

/-! ## Softbuffer lookup (ue.cc, `ue::get_rx_softbuffer` / `ue::get_tx_softbuffer`) -/

/-- `SRSLTE_MAX_TB`, the maximum number of transport blocks per grant
(library constant, value 2). -/
def SRSLTE_MAX_TB : Nat := 2

/-- `ue::get_rx_softbuffer(ue_cc_idx, tti)` (ue.cc:133-146): `none` if the
carrier index is out of range or fewer buffers than
`nof_rx_harq_proc` are allocated; otherwise the buffer at index
`tti % nof_rx_harq_proc` of that carrier. -/
def get_rx_softbuffer {α : Type} (nofRxHarqProc : Nat) (softbufferRx : List (List α))
    (ueCcIdx tti : Nat) : Option α :=
  if ueCcIdx ≥ softbufferRx.length then none
  else if nofRxHarqProc > (softbufferRx.getD ueCcIdx []).length then none
  else (softbufferRx.getD ueCcIdx [])[tti % nofRxHarqProc]?

/-- `ue::get_tx_softbuffer(ue_cc_idx, harq_process, tb_idx)`
(ue.cc:148-162): same guards on the tx side; the buffer index is
`(harq_process * SRSLTE_MAX_TB + tb_idx) % nof_tx_harq_proc`. -/
def get_tx_softbuffer {α : Type} (nofTxHarqProc : Nat) (softbufferTx : List (List α))
    (ueCcIdx harqProcess tbIdx : Nat) : Option α :=
  if ueCcIdx ≥ softbufferTx.length then none
  else if nofTxHarqProc > (softbufferTx.getD ueCcIdx []).length then none
  else (softbufferTx.getD ueCcIdx [])[(harqProcess * SRSLTE_MAX_TB + tbIdx) % nofTxHarqProc]?

/-! ## Measurement-configuration diff (spec §4.8, `var_meas_cfg_t`)

The implementation (`var_meas_cfg_t::compute_diff_meas_cfg` in
`rrc_mobility.cc`) is not part of the sources here — only its test
`rrc_mobility_test.cc` is — so the component is modelled from the
specification. -/

/-- Modelled from the spec: a neighbor cell of a measurement object,
keyed externally by cell index (lower octet of the ECI): physical cell id
and offset. -/
structure CellCfg where
  pci : Nat
  offset : Int
deriving DecidableEq

/-- Modelled from the spec: a measurement object, an EARFCN plus a set of
neighbor cells keyed by cell index (0–255). -/
structure MeasObj where
  earfcn : Nat
  cells : Fin 256 → Option CellCfg

instance : DecidableEq MeasObj := fun a b =>
  decidable_of_iff (a.earfcn = b.earfcn ∧ a.cells = b.cells)
    (by cases a; cases b; simp)

/-- Modelled from the spec: a report configuration keyed by report id
(trigger type A1–A6, threshold, hysteresis, time-to-trigger, max cells,
report amount, report interval). -/
structure ReportCfg where
  triggerType : Nat
  threshold : Int
  hysteresis : Nat
  timeToTrigger : Nat
  maxCells : Nat
  reportAmount : Nat
  reportInterval : Nat
deriving DecidableEq

/-- Modelled from the spec: a var-meas-cfg: measurement objects, report
configurations and meas-ids (object id → report id mappings), each an
ordered set keyed by an identifier in [1, 32] (modelled as a partial map
on 33 key slots). -/
structure VarMeasCfg where
  measObjs : Fin 33 → Option MeasObj
  reportCfgs : Fin 33 → Option ReportCfg
  measIds : Fin 33 → Option (Nat × Nat)

/-- Lookup of a key in an association list (used to apply the
add-or-modify lists of a delta). -/
def assocLookup {κ V : Type} [DecidableEq κ] (l : List (κ × V)) (k : κ) : Option V :=
  match l.find? (fun e => decide (e.1 = k)) with
  | some e => some e.2
  | none => none

/-- Modelled from the spec: the entry a keyed diff emits for one key:
present in the target and absent-or-different in the source gives an
add-or-modify entry carrying the target value; otherwise nothing. -/
def addModEntry {n : Nat} {V : Type} [DecidableEq V]
    (src tgt : Fin n → Option V) (k : Fin n) : Option V :=
  match tgt k with
  | some v => if src k = some v then none else some v
  | none => none

/-- Modelled from the spec: the add-or-modify list of a keyed diff, in
increasing key order. -/
def keyedAddMod {n : Nat} {V : Type} [DecidableEq V]
    (src tgt : Fin n → Option V) : List (Fin n × V) :=
  (List.finRange n).filterMap fun k => (addModEntry src tgt k).map fun v => (k, v)

/-- Modelled from the spec: the remove list of a keyed diff — keys present
in the source and absent in the target, in increasing key order. -/
def keyedRemove {n : Nat} {V W : Type}
    (src : Fin n → Option V) (tgt : Fin n → Option W) : List (Fin n) :=
  (List.finRange n).filter fun k => (src k).isSome && (tgt k).isNone

/-- Modelled from the spec: applying a flat keyed delta (add-or-modify
entries override, removed keys are dropped, the rest is kept). -/
def applyKeyed {n : Nat} {V : Type} [DecidableEq V]
    (src : Fin n → Option V) (addMod : List (Fin n × V)) (rem : List (Fin n)) :
    Fin n → Option V :=
  fun k =>
    match assocLookup addMod k with
    | some v => some v
    | none => if k ∈ rem then none else src k

/-- Modelled from the spec: the delta emitted for one measurement object
that is added or modified: the target EARFCN plus the neighbor-cell
add-or-modify and remove lists. -/
structure MeasObjDelta where
  earfcn : Nat
  cellsToAddModList : List (Fin 256 × CellCfg)
  cellsToRemList : List (Fin 256)

/-- The empty neighbor-cell set, the baseline against which a freshly
added object is diffed. -/
def emptyCells : Fin 256 → Option CellCfg := fun _ => none

/-- Modelled from the spec: the within-object diff — neighbor cells to
add-or-modify (absent in the source cell set or differing in pci or
offset) and to remove (by cell index). -/
def diffObj (srcCells : Fin 256 → Option CellCfg) (tgt : MeasObj) : MeasObjDelta :=
  { earfcn := tgt.earfcn
    cellsToAddModList := keyedAddMod srcCells tgt.cells
    cellsToRemList := keyedRemove srcCells tgt.cells }

/-- Modelled from the spec: the add-or-modify entry for one measurement
object key — emitted whenever the target has an object there and the
source has none or a differing one (differing neighbor set or EARFCN). -/
def objAddModEntry (src tgt : Fin 33 → Option MeasObj) (k : Fin 33) : Option MeasObjDelta :=
  match tgt k with
  | some o2 =>
    match src k with
    | some o1 => if o1 = o2 then none else some (diffObj o1.cells o2)
    | none => some (diffObj emptyCells o2)
  | none => none

/-- Modelled from the spec: the delta between two var-meas-cfgs:
add-or-modify and remove lists for measurement objects, report
configurations and meas-ids; a presence flag of the on-wire `meas_cfg_s`
is set exactly when the corresponding list is non-empty. -/
structure MeasCfgDelta where
  measObjToAddModList : List (Fin 33 × MeasObjDelta)
  measObjToRemList : List (Fin 33)
  reportCfgToAddModList : List (Fin 33 × ReportCfg)
  reportCfgToRemList : List (Fin 33)
  measIdToAddModList : List (Fin 33 × (Nat × Nat))
  measIdToRemList : List (Fin 33)

/-- Modelled from the spec: `var_meas_cfg_t::compute_diff_meas_cfg` — the
delta from `src` to `tgt`. -/
def compute_diff_meas_cfg (src tgt : VarMeasCfg) : MeasCfgDelta :=
  { measObjToAddModList :=
      (List.finRange 33).filterMap fun k =>
        (objAddModEntry src.measObjs tgt.measObjs k).map fun d => (k, d)
    measObjToRemList := keyedRemove src.measObjs tgt.measObjs
    reportCfgToAddModList := keyedAddMod src.reportCfgs tgt.reportCfgs
    reportCfgToRemList := keyedRemove src.reportCfgs tgt.reportCfgs
    measIdToAddModList := keyedAddMod src.measIds tgt.measIds
    measIdToRemList := keyedRemove src.measIds tgt.measIds }

/-- Modelled from the spec: applying an object delta on top of an
optional source object: the EARFCN is taken from the delta and the
neighbor-cell lists are applied to the source cell set (empty for a fresh
add). -/
def applyObjDelta (srcObj : Option MeasObj) (d : MeasObjDelta) : MeasObj :=
  let cells0 := match srcObj with
    | some o => o.cells
    | none => emptyCells
  { earfcn := d.earfcn
    cells := applyKeyed cells0 d.cellsToAddModList d.cellsToRemList }

/-- Modelled from the spec: applying a delta to a var-meas-cfg (TS 36.331
delta semantics: add-or-modify entries replace, removed ids drop, the
rest is kept). -/
def applyMeasCfgDelta (src : VarMeasCfg) (d : MeasCfgDelta) : VarMeasCfg :=
  { measObjs := fun k =>
      match assocLookup d.measObjToAddModList k with
      | some od => some (applyObjDelta (src.measObjs k) od)
      | none => if k ∈ d.measObjToRemList then none else src.measObjs k
    reportCfgs := applyKeyed src.reportCfgs d.reportCfgToAddModList d.reportCfgToRemList
    measIds := applyKeyed src.measIds d.measIdToAddModList d.measIdToRemList }

/-- The delta with all six lists empty (hence no presence flag set). -/
def emptyMeasCfgDelta : MeasCfgDelta :=
  { measObjToAddModList := [], measObjToRemList := []
    reportCfgToAddModList := [], reportCfgToRemList := []
    measIdToAddModList := [], measIdToRemList := [] }

/-- Whether any presence flag of the encoded `meas_cfg_s` would be set:
each `_present` flag is set exactly when the corresponding list is
non-empty. -/
def anyPresenceFlagSet (d : MeasCfgDelta) : Bool :=
  !d.measObjToAddModList.isEmpty || !d.measObjToRemList.isEmpty ||
  !d.reportCfgToAddModList.isEmpty || !d.reportCfgToRemList.isEmpty ||
  !d.measIdToAddModList.isEmpty || !d.measIdToRemList.isEmpty

/-! ## Declarative notions used to state the claims -/

/-- Whether a control element counts as a received BSR for
`bsr_received` (`process_ce` returns `true` exactly for a
short/truncated BSR with a valid LCG index, or a long BSR). -/
def ceIsBsr : UlCe → Bool
  | .truncBsr (some _) _ => true
  | .shortBsr (some _) _ => true
  | .longBsr _ _ _ _ => true
  | _ => false

/-- Whether a subheader is a BSR control element. -/
def headerIsBsr : SubHeader → Bool
  | .ce c => ceIsBsr c
  | .sdu _ _ => false

/-- Whether the PDU contains any BSR control element. -/
def bsrCePresent (hs : List SubHeader) : Bool :=
  hs.any headerIsBsr

/-- The (LCID, payload length) pair of an SDU subheader. -/
def sduLenEntry : SubHeader → Option (Nat × Nat)
  | .sdu l p => some (l, p.length)
  | .ce _ => none

/-- The (LCID, payload length) pairs of the SDU subheaders of a PDU, in
order. -/
def sduLens (hs : List SubHeader) : List (Nat × Nat) :=
  hs.filterMap sduLenEntry

/-- `(l, s)` occurs in `ps` as the first entry attaining the maximal
second component: everything before it is strictly smaller, everything
after it no larger. -/
def IsFirstMax (ps : List (Nat × Nat)) (l s : Nat) : Prop :=
  ∃ pre post, ps = pre ++ (l, s) :: post ∧
    (∀ q ∈ pre, q.2 < s) ∧ (∀ q ∈ post, q.2 ≤ s)

/-- The `most_data` / `lcid_most_data` tracking of `ue::process_pdu`
(ue.cc:229-230, 267-270), as a fold on (LCID, payload length) pairs. -/
def argFold (acc : Int × Nat) (ps : List (Nat × Nat)) : Int × Nat :=
  ps.foldl (fun a q => if (q.2 : Int) > a.1 then ((q.2 : Int), q.1) else a) acc

/-- The delivery decision of the specification for one subheader: an SDU
is delivered to RLC unless its LCID is 0 and every payload byte is
zero. -/
def deliveredEntry : SubHeader → Option (Nat × List Nat)
  | .sdu l p => if l = 0 ∧ (∀ b ∈ p, b = 0) then none else some (l, p)
  | .ce _ => none

/-- The SDUs the specification says are delivered to RLC, in order. -/
def deliveredSdus (hs : List SubHeader) : List (Nat × List Nat) :=
  hs.filterMap deliveredEntry

/-- A delivered LCID-0 SDU payload of at least six bytes overwrites the
contention-resolution identity. -/
def conresEntry : SubHeader → Option (List Nat)
  | .sdu l p => if l = 0 ∧ ¬(∀ b ∈ p, b = 0) ∧ 6 ≤ p.length then some p else none
  | .ce _ => none

/-- The payloads that overwrite the contention-resolution identity, in
order. -/
def conresSources (hs : List SubHeader) : List (List Nat) :=
  hs.filterMap conresEntry

/-- `a` is the first element of `l` satisfying `p`. -/
def FirstSat {α : Type} (p : α → Bool) (l : List α) (a : α) : Prop :=
  ∃ pre post, l = pre ++ a :: post ∧ p a = true ∧ ∀ b ∈ pre, p b = false

/-! ## Concrete instances used for evaluation -/

/-- Normal-CP cell, `delta_pucch_shift = 2` (so `max_users = 18`),
`ncs_an = 4`. -/
def exCommon : PucchCommonCfg := { cpIsNorm := true, deltaPucchShift := 2, ncsAn := 4 }

/-- A one-slot SR grid whose single subframe offset is 0. -/
def exGridCfg : PucchGridCfg := { nofPrb := 1, nofSubframes := 1, sfMapping := fun _ => 0 }

/-- A grid in which every slot already holds exactly `max_users = 18`
users. -/
def exFullGrid : Grid := fun _ _ => 18

/-- A handle pointing at slot (0, 0) with the allocated flag set. -/
def exHandle : ResHandle := { allocated := true, prbIdx := 0, sfIdx := 0 }

/-- A grid whose every counter is 2 (two users sharing each slot). -/
def exGrid2 : Grid := fun _ _ => 2

/-- A PDU holding a single one-byte SDU on LCID 3 and no BSR CE. -/
def exC3Pdu : List SubHeader := [.sdu 3 [1]]

/-- A PDU holding a single seven-byte SDU on LCID 0. -/
def exC6Pdu : List SubHeader := [.sdu 0 [1, 2, 3, 4, 5, 6, 7]]

/-- A scheduler in which every RNTI exists. -/
def exUeExists : Nat → Bool := fun _ => true

/-- An all-zero contention-resolution identity. -/
def exConres0 : Fin 6 → Nat := fun _ => 0

/-- Capabilities supporting EEA2 and EIA2 only. -/
def exCaps : SecCapabilities :=
  { eea1 := false, eea2 := true, eea3 := false,
    eia1 := false, eia2 := true, eia3 := false }

/-- A softbuffer pool with one carrier of eight buffers. -/
def exBufs : List (List Nat) := [[10, 11, 12, 13, 14, 15, 16, 17]]

/-! # Helper lemmas -/

theorem decSlot_bumpSlot (g : Grid) (i j : Nat) : decSlot (bumpSlot g i j) i j = g := by
  funext a b
  unfold decSlot bumpSlot
  by_cases hab : a = i ∧ b = j
  · simp [hab]
  · simp [hab]

theorem bumpSlot_self_pos (g : Grid) (i j : Nat) : 0 < bumpSlot g i j i j := by
  unfold bumpSlot
  simp

theorem selectCipher_eq_find (caps : SecCapabilities) (l : List CipherAlg) :
    selectCipher caps l = l.find? (cipherSelectable caps) := by
  induction l with
  | nil => rfl
  | cons a rest ih =>
    cases h : cipherSelectable caps a
    · simp [selectCipher, h, ih]
    · simp [selectCipher, h]

theorem selectInteg_eq_find (caps : SecCapabilities) (l : List IntegAlg) :
    selectInteg caps l = l.find? (integSelectable caps) := by
  induction l with
  | nil => rfl
  | cons a rest ih =>
    cases h : integSelectable caps a
    · simp [selectInteg, h, ih]
    · simp [selectInteg, h]

theorem txIds_replicate (tid n : Nat) :
    txIds tid (List.replicate n TxEvent.sendMsg) =
      (List.range n).map (fun k => (tid + k) % 4) := by
  induction n generalizing tid with
  | zero => rfl
  | succ n ih =>
    rw [List.replicate_succ]
    show (tid % 4) :: txIds (tid + 1) (List.replicate n TxEvent.sendMsg) = _
    rw [ih, List.range_succ_eq_map]
    simp only [List.map_cons, List.map_map, Nat.add_zero]
    congr 1
    exact List.map_congr_left fun k _ => by
      simp only [Function.comp_apply]
      omega

theorem foldl_add_shift (p : List Nat) : ∀ a : Nat, p.foldl (fun x y => x + y) a = a + byteSum p := by
  induction p with
  | nil =>
    intro a
    simp [byteSum]
  | cons b t ih =>
    intro a
    show t.foldl (fun x y => x + y) (a + b) = a + byteSum (b :: t)
    rw [ih (a + b)]
    have hb : byteSum (b :: t) = b + byteSum t := by
      show t.foldl (fun x y => x + y) (0 + b) = b + byteSum t
      rw [Nat.zero_add, ih b]
    omega

theorem byteSum_eq_zero_iff (p : List Nat) : byteSum p = 0 ↔ ∀ b ∈ p, b = 0 := by
  induction p with
  | nil => simp [byteSum]
  | cons b t ih =>
    have hc : byteSum (b :: t) = b + byteSum t := by
      show t.foldl (fun x y => x + y) (0 + b) = b + byteSum t
      rw [Nat.zero_add, foldl_add_shift t b]
    rw [hc]
    simp only [List.mem_cons]
    constructor
    · intro h b2 hb2
      rcases hb2 with rfl | hb2
      · omega
      · exact (ih.mp (by omega)) b2 hb2
    · intro h
      have hb0 : b = 0 := h b (Or.inl rfl)
      have ht0 : byteSum t = 0 := ih.mpr fun x hx => h x (Or.inr hx)
      omega

theorem writeConres_eq (old : Fin 6 → Nat) (p : List Nat) :
    writeConres old p = fun j : Fin 6 => p.getD (5 - j.val) 0 := by
  funext j
  fin_cases j <;> rfl

theorem process_ce_is_bsr (u : Nat → Bool) (rnti : Nat) (c : UlCe) :
    (process_ce u rnti c).is_bsr = ceIsBsr c := by
  cases c with
  | phr v => rfl
  | crnti o =>
    simp only [process_ce]
    split <;> rfl
  | truncBsr lcg b => cases lcg <;> rfl
  | shortBsr lcg b => cases lcg <;> rfl
  | longBsr b0 b1 b2 b3 => rfl
  | padding => rfl
  | invalid => rfl

theorem pass2Step_bsr (u : Nat → Bool) (st : Pass2State) (h : SubHeader) :
    (pass2Step u st h).bsrReceived = (st.bsrReceived || headerIsBsr h) := by
  cases h with
  | sdu l p => simp [pass2Step, headerIsBsr]
  | ce c => simp [pass2Step, headerIsBsr, process_ce_is_bsr]

theorem pass2_foldl_bsr (u : Nat → Bool) (hs : List SubHeader) : ∀ st : Pass2State,
    (hs.foldl (pass2Step u) st).bsrReceived = (st.bsrReceived || bsrCePresent hs) := by
  induction hs with
  | nil =>
    intro st
    simp [bsrCePresent]
  | cons h t ih =>
    intro st
    rw [List.foldl_cons, ih (pass2Step u st h), pass2Step_bsr]
    simp [bsrCePresent, Bool.or_assoc]

theorem argFold_cons (acc : Int × Nat) (q : Nat × Nat) (ps : List (Nat × Nat)) :
    argFold acc (q :: ps) =
      argFold (if (q.2 : Int) > acc.1 then ((q.2 : Int), q.1) else acc) ps := rfl

theorem argFold_append (acc : Int × Nat) (ps qs : List (Nat × Nat)) :
    argFold acc (ps ++ qs) = argFold (argFold acc ps) qs := by
  unfold argFold
  exact List.foldl_append _ _ _ _

theorem argFold_all_le (ps : List (Nat × Nat)) : ∀ acc : Int × Nat,
    (∀ q ∈ ps, (q.2 : Int) ≤ acc.1) → argFold acc ps = acc := by
  induction ps with
  | nil =>
    intro acc _
    rfl
  | cons q t ih =>
    intro acc h
    rw [argFold_cons, if_neg (by have := h q (by simp); omega)]
    exact ih acc fun x hx => h x (by simp [hx])

theorem argFold_lt_of_all_lt (ps : List (Nat × Nat)) (s : Nat) : ∀ acc : Int × Nat,
    acc.1 < (s : Int) → (∀ q ∈ ps, q.2 < s) → (argFold acc ps).1 < (s : Int) := by
  induction ps with
  | nil =>
    intro acc hacc _
    exact hacc
  | cons q t ih =>
    intro acc hacc h
    rw [argFold_cons]
    by_cases hq : (q.2 : Int) > acc.1
    · rw [if_pos hq]
      refine ih _ ?_ fun x hx => h x (by simp [hx])
      show (q.2 : Int) < (s : Int)
      have := h q (by simp)
      omega
    · rw [if_neg hq]
      exact ih acc hacc fun x hx => h x (by simp [hx])

theorem argFold_of_firstMax (ps : List (Nat × Nat)) (l s : Nat) (h : IsFirstMax ps l s) :
    argFold (-99, 0) ps = ((s : Int), l) := by
  obtain ⟨pre, post, rfl, hpre, hpost⟩ := h
  rw [argFold_append]
  have hlt : (argFold (-99, 0) pre).1 < (s : Int) :=
    argFold_lt_of_all_lt pre s (-99, 0) (by simp; omega) hpre
  rw [argFold_cons, if_pos (by exact hlt)]
  exact argFold_all_le post _ fun q hq => by
    have := hpost q hq
    show (q.2 : Int) ≤ (s : Int)
    omega

theorem argFold_cases (ps : List (Nat × Nat)) : ∀ acc : Int × Nat,
    (argFold acc ps = acc ∧ ∀ q ∈ ps, (q.2 : Int) ≤ acc.1) ∨
    (∃ (pre : List (Nat × Nat)) (l s : Nat) (post : List (Nat × Nat)),
      ps = pre ++ (l, s) :: post ∧ argFold acc ps = ((s : Int), l) ∧
      acc.1 < (s : Int) ∧ (∀ q ∈ pre, (q.2 : Int) ≤ acc.1 ∨ q.2 < s) ∧
      (∀ q ∈ post, q.2 ≤ s)) := by
  induction ps with
  | nil =>
    intro acc
    left
    exact ⟨rfl, by simp⟩
  | cons q t ih =>
    intro acc
    by_cases hq : (q.2 : Int) > acc.1
    · right
      rcases ih ((q.2 : Int), q.1) with ⟨heq, hall⟩ |
        ⟨pre2, l, s, post2, hdec, hfold, hacc2, hpre2, hpost2⟩
      · refine ⟨[], q.1, q.2, t, by simp, ?_, hq, by simp, ?_⟩
        · rw [argFold_cons, if_pos hq]
          exact heq
        · intro x hx
          have := hall x hx
          omega
      · have hacc3 : (q.2 : Int) < (s : Int) := hacc2
        refine ⟨q :: pre2, l, s, post2, by rw [hdec]; rfl, ?_, ?_, ?_, hpost2⟩
        · rw [argFold_cons, if_pos hq]
          exact hfold
        · omega
        · intro x hx
          rcases List.mem_cons.mp hx with rfl | hx2
          · right
            omega
          · rcases hpre2 x hx2 with hle | hlt
            · have hle2 : (x.2 : Int) ≤ (q.2 : Int) := hle
              right
              omega
            · right
              exact hlt
    · rcases ih acc with ⟨heq, hall⟩ |
        ⟨pre2, l, s, post2, hdec, hfold, hacc2, hpre2, hpost2⟩
      · left
        refine ⟨?_, ?_⟩
        · rw [argFold_cons, if_neg hq]
          exact heq
        · intro x hx
          rcases List.mem_cons.mp hx with rfl | hx2
          · omega
          · exact hall x hx2
      · right
        refine ⟨q :: pre2, l, s, post2, by rw [hdec]; rfl, ?_, hacc2, ?_, hpost2⟩
        · rw [argFold_cons, if_neg hq]
          exact hfold
        · intro x hx
          rcases List.mem_cons.mp hx with rfl | hx2
          · left
            omega
          · exact hpre2 x hx2

theorem argFold_firstMax_exists (ps : List (Nat × Nat)) (hne : ps ≠ []) :
    ∃ l s, IsFirstMax ps l s ∧ argFold (-99, 0) ps = ((s : Int), l) := by
  rcases argFold_cases ps (-99, 0) with ⟨_, hall⟩ |
    ⟨pre, l, s, post, hdec, hfold, _, hpre, hpost⟩
  · cases ps with
    | nil => exact absurd rfl hne
    | cons q t =>
      have h2 : (q.2 : Int) ≤ ((-99 : Int), 0).1 := hall q (by simp)
      have h3 : (q.2 : Int) ≤ -99 := h2
      omega
  · refine ⟨l, s, ⟨pre, post, hdec, ?_, hpost⟩, hfold⟩
    intro x hx
    rcases hpre x hx with hle | hlt
    · have hle2 : (x.2 : Int) ≤ -99 := hle
      omega
    · exact hlt

theorem sduStep_most (st : Pass1State) (l : Nat) (p : List Nat) :
    ((sduStep st l p).mostData, (sduStep st l p).lcidMostData) =
      if (p.length : Int) > st.mostData then ((p.length : Int), l)
      else (st.mostData, st.lcidMostData) := by
  by_cases hc : (p.length : Int) > st.mostData <;> simp [sduStep, hc]

theorem pass1_foldl_most (hs : List SubHeader) : ∀ st : Pass1State,
    ((hs.foldl pass1Step st).mostData, (hs.foldl pass1Step st).lcidMostData) =
      argFold (st.mostData, st.lcidMostData) (sduLens hs) := by
  induction hs with
  | nil =>
    intro st
    rfl
  | cons h t ih =>
    intro st
    cases h with
    | ce c =>
      simp only [List.foldl_cons, pass1Step]
      rw [ih st]
      have hsl : sduLens (SubHeader.ce c :: t) = sduLens t := by
        simp [sduLens, sduLenEntry]
      rw [hsl]
    | sdu l p =>
      simp only [List.foldl_cons, pass1Step]
      rw [ih (sduStep st l p), sduStep_most]
      have hsl : sduLens (SubHeader.sdu l p :: t) = (l, p.length) :: sduLens t := by
        simp [sduLens, sduLenEntry]
      rw [hsl, argFold_cons]

theorem sduStep_writes (st : Pass1State) (l : Nat) (p : List Nat) :
    (sduStep st l p).rlcWrites =
      if ¬(l = 0 ∧ byteSum p = 0) then st.rlcWrites ++ [(l, p)] else st.rlcWrites := by
  by_cases hc : l = 0 ∧ byteSum p = 0
  · simp [sduStep, hc]
  · simp [sduStep, hc]

theorem pass1_foldl_writes (hs : List SubHeader) : ∀ st : Pass1State,
    (hs.foldl pass1Step st).rlcWrites = st.rlcWrites ++ deliveredSdus hs := by
  induction hs with
  | nil =>
    intro st
    simp [deliveredSdus]
  | cons h t ih =>
    intro st
    cases h with
    | ce c =>
      simp only [List.foldl_cons, pass1Step]
      rw [ih st]
      have hds : deliveredSdus (SubHeader.ce c :: t) = deliveredSdus t := by
        simp [deliveredSdus, deliveredEntry]
      rw [hds]
    | sdu l p =>
      simp only [List.foldl_cons, pass1Step]
      rw [ih (sduStep st l p), sduStep_writes]
      by_cases hc : l = 0 ∧ byteSum p = 0
      · rw [if_neg (by simpa using hc)]
        have hds : deliveredSdus (SubHeader.sdu l p :: t) = deliveredSdus t := by
          have he : deliveredEntry (SubHeader.sdu l p) = none := by
            simp only [deliveredEntry]
            rw [if_pos ⟨hc.1, (byteSum_eq_zero_iff _).mp hc.2⟩]
          simp [deliveredSdus, List.filterMap_cons, he]
        rw [hds]
      · rw [if_pos hc]
        have he : deliveredEntry (SubHeader.sdu l p) = some (l, p) := by
          simp only [deliveredEntry]
          rw [if_neg (fun hz => hc ⟨hz.1, (byteSum_eq_zero_iff _).mpr hz.2⟩)]
        have hds : deliveredSdus (SubHeader.sdu l p :: t) = (l, p) :: deliveredSdus t := by
          simp [deliveredSdus, List.filterMap_cons, he]
        rw [hds]
        simp

theorem pass1_foldl_conres (hs : List SubHeader) : ∀ st : Pass1State,
    ((conresSources hs).getLast? = none → (hs.foldl pass1Step st).conresId = st.conresId) ∧
    (∀ p, (conresSources hs).getLast? = some p →
      (hs.foldl pass1Step st).conresId = fun j : Fin 6 => p.getD (5 - j.val) 0) := by
  induction hs with
  | nil =>
    intro st
    exact ⟨fun _ => rfl, fun p hp => by cases hp⟩
  | cons h t ih =>
    intro st
    cases h with
    | ce c =>
      have hcs : conresSources (SubHeader.ce c :: t) = conresSources t := by
        simp [conresSources, conresEntry]
      simp only [List.foldl_cons, pass1Step, hcs]
      exact ih st
    | sdu l p =>
      by_cases hq : l = 0 ∧ ¬(∀ b ∈ p, b = 0) ∧ 6 ≤ p.length
      · have hcs : conresSources (SubHeader.sdu l p :: t) = p :: conresSources t := by
          have he : conresEntry (SubHeader.sdu l p) = some p := by
            simp only [conresEntry]
            rw [if_pos hq]
          simp [conresSources, List.filterMap_cons, he]
        have hstep : (sduStep st l p).conresId = writeConres st.conresId p := by
          have hcond : l = 0 ∧ ¬(l = 0 ∧ byteSum p = 0) ∧ p.length ≥ 6 :=
            ⟨hq.1, fun hz => hq.2.1 ((byteSum_eq_zero_iff _).mp hz.2), hq.2.2⟩
          simp only [sduStep]
          rw [if_pos hcond]
        simp only [List.foldl_cons, pass1Step, hcs]
        constructor
        · intro habs
          exact absurd (List.getLast?_eq_none_iff.mp habs) (by simp)
        · intro q hql
          cases hcst : conresSources t with
          | nil =>
            rw [hcst] at hql
            have hqp : q = p := by simpa using hql.symm
            rw [hqp]
            have h0 := (ih (sduStep st l p)).1 (by rw [hcst]; rfl)
            rw [h0, hstep, writeConres_eq]
          | cons a u =>
            rw [hcst] at hql
            rw [List.getLast?_cons_cons] at hql
            have h2 := (ih (sduStep st l p)).2 q (by rw [hcst]; exact hql)
            exact h2
      · have hcs : conresSources (SubHeader.sdu l p :: t) = conresSources t := by
          have he : conresEntry (SubHeader.sdu l p) = none := by
            simp only [conresEntry]
            rw [if_neg hq]
          simp [conresSources, List.filterMap_cons, he]
        have hstep : (sduStep st l p).conresId = st.conresId := by
          have hcond : ¬(l = 0 ∧ ¬(l = 0 ∧ byteSum p = 0) ∧ p.length ≥ 6) := by
            intro h2
            exact hq ⟨h2.1, fun hall => h2.2.1 ⟨h2.1, (byteSum_eq_zero_iff _).mpr hall⟩, h2.2.2⟩
          simp only [sduStep]
          rw [if_neg hcond]
        simp only [List.foldl_cons, pass1Step, hcs]
        constructor
        · intro hnone
          rw [(ih (sduStep st l p)).1 hnone, hstep]
        · intro q hql
          exact (ih (sduStep st l p)).2 q hql

theorem assocLookup_cons {κ V : Type} [DecidableEq κ] (j : κ) (v : V) (t : List (κ × V))
    (k : κ) :
    assocLookup ((j, v) :: t) k = if j = k then some v else assocLookup t k := by
  unfold assocLookup
  by_cases h : j = k
  · rw [List.find?_cons_of_pos _ (by simpa using h)]
    simp [h]
  · rw [List.find?_cons_of_neg _ (by simpa using h)]
    simp [h]

theorem assocLookup_filterMap_not_mem {κ V : Type} [DecidableEq κ] (g : κ → Option V) :
    ∀ (l : List κ) (k : κ), k ∉ l →
      assocLookup (l.filterMap fun j => (g j).map fun v => (j, v)) k = none := by
  intro l
  induction l with
  | nil =>
    intro k _
    rfl
  | cons j rest ih =>
    intro k hk
    have hkj : k ≠ j := fun h => hk (h ▸ List.mem_cons_self j rest)
    have hkr : k ∉ rest := fun h => hk (List.mem_cons_of_mem j h)
    rw [List.filterMap_cons]
    cases hg : g j with
    | none =>
      simp only [hg, Option.map_none']
      exact ih k hkr
    | some v =>
      simp only [hg, Option.map_some']
      rw [assocLookup_cons, if_neg (fun h => hkj h.symm)]
      exact ih k hkr

theorem assocLookup_filterMap_mem {κ V : Type} [DecidableEq κ] (g : κ → Option V) :
    ∀ l : List κ, l.Nodup → ∀ k ∈ l,
      assocLookup (l.filterMap fun j => (g j).map fun v => (j, v)) k = g k := by
  intro l
  induction l with
  | nil =>
    intro _ k hk
    cases hk
  | cons j rest ih =>
    intro hnd k hk
    have hjrest : j ∉ rest := (List.nodup_cons.mp hnd).1
    have hndr : rest.Nodup := (List.nodup_cons.mp hnd).2
    rw [List.filterMap_cons]
    rcases List.mem_cons.mp hk with rfl | hkr
    · cases hg : g k with
      | none =>
        simp only [hg, Option.map_none']
        rw [assocLookup_filterMap_not_mem g rest k hjrest]
      | some v =>
        simp only [hg, Option.map_some']
        rw [assocLookup_cons, if_pos rfl]
    · have hkj : k ≠ j := fun h => hjrest (h ▸ hkr)
      cases hg : g j with
      | none =>
        simp only [hg, Option.map_none']
        exact ih hndr k hkr
      | some v =>
        simp only [hg, Option.map_some']
        rw [assocLookup_cons, if_neg (fun h => hkj h.symm)]
        exact ih hndr k hkr

theorem assocLookup_keyed {n : Nat} {V : Type} [DecidableEq (Fin n)] (g : Fin n → Option V)
    (k : Fin n) :
    assocLookup ((List.finRange n).filterMap fun j => (g j).map fun v => (j, v)) k = g k :=
  assocLookup_filterMap_mem g (List.finRange n) (List.nodup_finRange n) k
    (List.mem_finRange k)

theorem mem_keyedRemove {n : Nat} {V W : Type} (src : Fin n → Option V)
    (tgt : Fin n → Option W) (k : Fin n) :
    k ∈ keyedRemove src tgt ↔ ((src k).isSome = true ∧ (tgt k).isNone = true) := by
  unfold keyedRemove
  rw [List.mem_filter]
  simp [List.mem_finRange]

theorem addModEntry_eq_none_of_eq {n : Nat} {V : Type} [DecidableEq V]
    {src tgt : Fin n → Option V} {k : Fin n} {v : V}
    (htgt : tgt k = some v) (hsrc : src k = some v) :
    addModEntry src tgt k = none := by
  unfold addModEntry
  rw [htgt]
  show (if src k = some v then none else some v) = none
  rw [if_pos hsrc]

theorem addModEntry_eq_some_of_ne {n : Nat} {V : Type} [DecidableEq V]
    {src tgt : Fin n → Option V} {k : Fin n} {v : V}
    (htgt : tgt k = some v) (hsrc : ¬src k = some v) :
    addModEntry src tgt k = some v := by
  unfold addModEntry
  rw [htgt]
  show (if src k = some v then none else some v) = some v
  rw [if_neg hsrc]

theorem addModEntry_eq_none_of_tgt_none {n : Nat} {V : Type} [DecidableEq V]
    {src tgt : Fin n → Option V} {k : Fin n} (htgt : tgt k = none) :
    addModEntry src tgt k = none := by
  unfold addModEntry
  rw [htgt]

theorem applyKeyed_diff {n : Nat} {V : Type} [DecidableEq V] (src tgt : Fin n → Option V) :
    applyKeyed src (keyedAddMod src tgt) (keyedRemove src tgt) = tgt := by
  funext k
  show (match assocLookup (keyedAddMod src tgt) k with
        | some v => some v
        | none => if k ∈ keyedRemove src tgt then none else src k) = tgt k
  unfold keyedAddMod
  rw [assocLookup_keyed]
  cases htgt : tgt k with
  | some v =>
    by_cases hsrc : src k = some v
    · rw [addModEntry_eq_none_of_eq htgt hsrc]
      show (if k ∈ keyedRemove src tgt then none else src k) = some v
      rw [if_neg (by rw [mem_keyedRemove]; simp [htgt]), hsrc]
    · rw [addModEntry_eq_some_of_ne htgt hsrc]
  | none =>
    rw [addModEntry_eq_none_of_tgt_none htgt]
    show (if k ∈ keyedRemove src tgt then none else src k) = none
    cases hsrc : src k with
    | some w => rw [if_pos (by rw [mem_keyedRemove]; simp [hsrc, htgt])]
    | none => rw [if_neg (by rw [mem_keyedRemove]; simp [hsrc])]

theorem keyedAddMod_self {n : Nat} {V : Type} [DecidableEq V] (src : Fin n → Option V) :
    keyedAddMod src src = [] := by
  unfold keyedAddMod
  rw [List.filterMap_eq_nil_iff]
  intro k _
  cases h : src k with
  | none => rw [addModEntry_eq_none_of_tgt_none h]; rfl
  | some v => rw [addModEntry_eq_none_of_eq h h]; rfl

theorem keyedRemove_self {n : Nat} {V : Type} (src : Fin n → Option V) :
    keyedRemove src src = [] := by
  unfold keyedRemove
  rw [List.filter_eq_nil_iff]
  intro k _
  cases h : src k <;> simp [h]

theorem objAddModEntry_eq_none_of_eq {src tgt : Fin 33 → Option MeasObj} {k : Fin 33}
    {o1 o2 : MeasObj} (htgt : tgt k = some o2) (hsrc : src k = some o1)
    (heq : o1 = o2) :
    objAddModEntry src tgt k = none := by
  unfold objAddModEntry
  rw [htgt, hsrc]
  show (if o1 = o2 then none else some (diffObj o1.cells o2)) = none
  rw [if_pos heq]

theorem objAddModEntry_eq_some_of_ne {src tgt : Fin 33 → Option MeasObj} {k : Fin 33}
    {o1 o2 : MeasObj} (htgt : tgt k = some o2) (hsrc : src k = some o1)
    (hne : ¬o1 = o2) :
    objAddModEntry src tgt k = some (diffObj o1.cells o2) := by
  unfold objAddModEntry
  rw [htgt, hsrc]
  show (if o1 = o2 then none else some (diffObj o1.cells o2)) = some (diffObj o1.cells o2)
  rw [if_neg hne]

theorem objAddModEntry_eq_some_of_src_none {src tgt : Fin 33 → Option MeasObj}
    {k : Fin 33} {o2 : MeasObj} (htgt : tgt k = some o2) (hsrc : src k = none) :
    objAddModEntry src tgt k = some (diffObj emptyCells o2) := by
  unfold objAddModEntry
  rw [htgt, hsrc]

theorem objAddModEntry_eq_none_of_tgt_none {src tgt : Fin 33 → Option MeasObj}
    {k : Fin 33} (htgt : tgt k = none) :
    objAddModEntry src tgt k = none := by
  unfold objAddModEntry
  rw [htgt]

theorem objAddModEntry_self (src : Fin 33 → Option MeasObj) (k : Fin 33) :
    objAddModEntry src src k = none := by
  cases h : src k with
  | none => exact objAddModEntry_eq_none_of_tgt_none h
  | some o => exact objAddModEntry_eq_none_of_eq h h rfl

theorem applyObjDelta_some_diff (o1 o2 : MeasObj) :
    applyObjDelta (some o1) (diffObj o1.cells o2) = o2 := by
  simp only [applyObjDelta, diffObj]
  rw [applyKeyed_diff]

theorem applyObjDelta_none_diff (o2 : MeasObj) :
    applyObjDelta none (diffObj emptyCells o2) = o2 := by
  simp only [applyObjDelta, diffObj]
  rw [applyKeyed_diff]

theorem applyMeasCfgDelta_measObjs (src tgt : VarMeasCfg) (k : Fin 33) :
    (applyMeasCfgDelta src (compute_diff_meas_cfg src tgt)).measObjs k =
      tgt.measObjs k := by
  show (match assocLookup ((List.finRange 33).filterMap fun j =>
          (objAddModEntry src.measObjs tgt.measObjs j).map fun d => (j, d)) k with
        | some od => some (applyObjDelta (src.measObjs k) od)
        | none =>
          if k ∈ keyedRemove src.measObjs tgt.measObjs then none else src.measObjs k) =
      tgt.measObjs k
  rw [assocLookup_keyed]
  cases htgt : tgt.measObjs k with
  | some o2 =>
    rcases hsrc : src.measObjs k with _ | o1
    · rw [objAddModEntry_eq_some_of_src_none htgt hsrc]
      show some (applyObjDelta none (diffObj emptyCells o2)) = some o2
      rw [applyObjDelta_none_diff]
    · by_cases heq : o1 = o2
      · rw [objAddModEntry_eq_none_of_eq htgt hsrc heq]
        show (if k ∈ keyedRemove src.measObjs tgt.measObjs then none
              else some o1) = some o2
        rw [if_neg (by rw [mem_keyedRemove]; simp [htgt]), heq]
      · rw [objAddModEntry_eq_some_of_ne htgt hsrc heq]
        show some (applyObjDelta (some o1) (diffObj o1.cells o2)) = some o2
        rw [applyObjDelta_some_diff]
  | none =>
    rw [objAddModEntry_eq_none_of_tgt_none htgt]
    show (if k ∈ keyedRemove src.measObjs tgt.measObjs then none
          else src.measObjs k) = none
    cases hsrc : src.measObjs k with
    | some o1 => rw [if_pos (by rw [mem_keyedRemove]; simp [hsrc, htgt])]
    | none => rw [if_neg (by rw [mem_keyedRemove]; simp [hsrc])]

/-! # Claim theorems -/

/-- Claim C1 (code_bug evidence): with a normal-CP cell, delta-shift 2
(`max_users = 18`) and `ncs_an = 4`, calling `sr_allocate` with period 20
on a grid whose every slot already holds exactly `max_users` users does
NOT fail: the guard `nof_users[i_min][j_min] > max_users` uses a strict
comparison, so the call succeeds, returns `I_sr = 20 - 5 + 0 = 15` and
`n_pucch = 0 * 18 + 18 + 4 = 22` (an index colliding with the first user
of the next PRB slot), and pushes the slot counter to `max_users + 1`,
whereas the claim requires failure with the grid unchanged. -/
theorem C1_sr_allocate_accepts_full_grid :
    maxUsers exCommon = 18 ∧
    exFullGrid 0 0 = maxUsers exCommon ∧
    (sr_allocate exCommon exGridCfg exFullGrid 20).map
        (fun r => (r.i_sr, r.n_pucch, r.handle.prbIdx, r.handle.sfIdx, r.grid 0 0)) =
      some (15, 22, 0, 0, 19) := by
  decide

/-- Claim C4 (counterexample): `sr_free` does not clear the
`sr_allocated` flag, so with two users sharing slot (0, 0) a second
`sr_free` by the same user decrements the counter again: the counter ends
at 0, not at the claimed single-decrement value 1. -/
theorem C4_double_free_decrements_twice :
    sr_free exHandle (sr_free exHandle exGrid2) 0 0 = 0 ∧
    ¬ sr_free exHandle (sr_free exHandle exGrid2) 0 0 = exGrid2 0 0 - 1 := by
  decide

/-- Claim C4 (amended): freeing the handle returned by a successful
`sr_allocate` / `cqi_allocate` restores the owning grid exactly to its
pre-allocation state, and each `sr_free` invocation on an allocated
handle whose counter is positive decrements that counter by one (the
flag is not cleared, so free is not idempotent). -/
theorem C4_alloc_free_roundtrip (c : PucchCommonCfg) (cfg : PucchGridCfg) (g : Grid)
    (period : Nat) :
    (∀ r, sr_allocate c cfg g period = some r → sr_free r.handle r.grid = g) ∧
    (∀ r, cqi_allocate c cfg g period = some r → cqi_free r.handle r.grid = g) ∧
    (∀ h gr, h.allocated = true → 0 < gr h.prbIdx h.sfIdx →
      sr_free h gr h.prbIdx h.sfIdx = gr h.prbIdx h.sfIdx - 1) := by
  refine ⟨?_, ?_, ?_⟩
  · intro r hr
    simp only [sr_allocate] at hr
    split at hr
    · cases hr
    · split at hr
      · cases hr
      · split at hr
        · have h2 := Option.some.inj hr
          subst h2
          simp [sr_free, bumpSlot_self_pos, decSlot_bumpSlot]
        · cases hr
  · intro r hr
    simp only [cqi_allocate] at hr
    split at hr
    · cases hr
    · split at hr
      · cases hr
      · split at hr
        · have h2 := Option.some.inj hr
          subst h2
          simp [cqi_free, bumpSlot_self_pos, decSlot_bumpSlot]
        · cases hr
  · intro h gr hall hpos
    unfold sr_free
    rw [hall]
    simp only [if_true, if_pos hpos]
    unfold decSlot
    simp

/-- Claim C4 (amended, witness): on the all-twos grid with a one-slot
configuration, period-20 allocation succeeds and one free restores the
grid. -/
theorem C4_alloc_free_roundtrip_witness :
    ∀ r, sr_allocate exCommon exGridCfg exGrid2 20 = some r →
      sr_free r.handle r.grid = exGrid2 :=
  (C4_alloc_free_roundtrip exCommon exGridCfg exGrid2 20).1

/-- Claim C2: applying the delta produced by the measurement-configuration
diff to the source configuration yields the target configuration, and
diffing two equal configurations yields the empty delta, in which no
presence flag (meas-object, report-config, meas-id add/modify/remove
lists) is set. -/
theorem C2_meas_cfg_diff_correct (src tgt : VarMeasCfg) :
    applyMeasCfgDelta src (compute_diff_meas_cfg src tgt) = tgt ∧
    compute_diff_meas_cfg src src = emptyMeasCfgDelta ∧
    anyPresenceFlagSet (compute_diff_meas_cfg src src) = false := by
  have happly : applyMeasCfgDelta src (compute_diff_meas_cfg src tgt) = tgt := by
    have h1 : (applyMeasCfgDelta src (compute_diff_meas_cfg src tgt)).measObjs =
        tgt.measObjs := funext (applyMeasCfgDelta_measObjs src tgt)
    have h2 : (applyMeasCfgDelta src (compute_diff_meas_cfg src tgt)).reportCfgs =
        tgt.reportCfgs := applyKeyed_diff src.reportCfgs tgt.reportCfgs
    have h3 : (applyMeasCfgDelta src (compute_diff_meas_cfg src tgt)).measIds =
        tgt.measIds := applyKeyed_diff src.measIds tgt.measIds
    have heta : applyMeasCfgDelta src (compute_diff_meas_cfg src tgt) =
        ⟨(applyMeasCfgDelta src (compute_diff_meas_cfg src tgt)).measObjs,
         (applyMeasCfgDelta src (compute_diff_meas_cfg src tgt)).reportCfgs,
         (applyMeasCfgDelta src (compute_diff_meas_cfg src tgt)).measIds⟩ := rfl
    rw [heta, h1, h2, h3]
  have hself : compute_diff_meas_cfg src src = emptyMeasCfgDelta := by
    unfold compute_diff_meas_cfg emptyMeasCfgDelta
    congr 1
    · rw [List.filterMap_eq_nil_iff]
      intro k _
      rw [objAddModEntry_self]
      rfl
    · exact keyedRemove_self _
    · exact keyedAddMod_self _
    · exact keyedRemove_self _
    · exact keyedAddMod_self _
    · exact keyedRemove_self _
  refine ⟨happly, hself, ?_⟩
  rw [hself]
  rfl

/-- Claim C3 (counterexample): a PDU carrying a single one-byte SDU on
LCID 3 and no BSR control element makes `ue::process_pdu` synthesize a
256-byte BSR for LCID 3, although no non-control LCID carried more than
64 bytes — the 64-byte threshold only gates the RRC activity
notification, not the synthetic BSR. -/
theorem C3_small_sdu_still_synthesizes_bsr :
    (process_pdu exUeExists 70 exConres0 exC3Pdu).syntheticBsr = some (70, 3, 256) ∧
    (∀ q ∈ sduLens exC3Pdu, ¬(2 < q.1 ∧ 64 < q.2)) := by
  constructor
  · decide
  · decide

/-- Claim C3 (amended): `ue::process_pdu` adds a synthetic BSR exactly
when no BSR control element is present in the PDU and the LCID that
carried the most SDU payload (the first such on ties) is greater than 2;
the synthesized amount is always 256 bytes for that LCID, on the user's
current RNTI. -/
theorem C3_synthetic_bsr_characterization (ueExists : Nat → Bool) (rnti0 : Nat)
    (conres0 : Fin 6 → Nat) (hs : List SubHeader) :
    (∀ e, (process_pdu ueExists rnti0 conres0 hs).syntheticBsr = some e →
      e.1 = (process_pdu ueExists rnti0 conres0 hs).rnti ∧ e.2.2 = 256) ∧
    (∀ l, (process_pdu ueExists rnti0 conres0 hs).syntheticBsr =
        some ((process_pdu ueExists rnti0 conres0 hs).rnti, l, 256) ↔
      (bsrCePresent hs = false ∧ 2 < l ∧ ∃ s, IsFirstMax (sduLens hs) l s)) := by
  have hdef : (process_pdu ueExists rnti0 conres0 hs).syntheticBsr =
      (if ¬(pass2 ueExists rnti0 hs).bsrReceived ∧ (pass1 conres0 hs).lcidMostData > 2
       then some ((pass2 ueExists rnti0 hs).rnti, (pass1 conres0 hs).lcidMostData, 256)
       else none) := rfl
  have hrnti : (process_pdu ueExists rnti0 conres0 hs).rnti =
      (pass2 ueExists rnti0 hs).rnti := rfl
  have hbsr : (pass2 ueExists rnti0 hs).bsrReceived = bsrCePresent hs := by
    unfold pass2
    rw [pass2_foldl_bsr]
    simp
  have hmost : ((pass1 conres0 hs).mostData, (pass1 conres0 hs).lcidMostData) =
      argFold (-99, 0) (sduLens hs) := by
    unfold pass1
    exact pass1_foldl_most hs _
  have hlcid : (pass1 conres0 hs).lcidMostData = (argFold (-99, 0) (sduLens hs)).2 :=
    congrArg Prod.snd hmost
  constructor
  · intro e he
    rw [hdef] at he
    by_cases hC : ¬(pass2 ueExists rnti0 hs).bsrReceived ∧
        (pass1 conres0 hs).lcidMostData > 2
    · rw [if_pos hC] at he
      obtain rfl := Option.some.inj he
      exact ⟨rfl, rfl⟩
    · rw [if_neg hC] at he
      cases he
  · intro l
    constructor
    · intro he
      rw [hdef, hrnti] at he
      by_cases hC : ¬(pass2 ueExists rnti0 hs).bsrReceived ∧
          (pass1 conres0 hs).lcidMostData > 2
      · rw [if_pos hC] at he
        have htrip := Option.some.inj he
        have hl : (pass1 conres0 hs).lcidMostData = l :=
          congrArg (fun t => t.2.1) htrip
        have hb : bsrCePresent hs = false := by
          rw [← hbsr]
          exact Bool.not_eq_true _ ▸ (by simpa using hC.1)
        have h2l : 2 < l := hl ▸ hC.2
        have hne : sduLens hs ≠ [] := by
          intro hnil
          rw [hlcid, hnil] at hl
          have h0 : (0 : Nat) = l := hl
          omega
        obtain ⟨l0, s, hfm, hfold⟩ := argFold_firstMax_exists (sduLens hs) hne
        have hl0 : l0 = l := by
          rw [hlcid, hfold] at hl
          exact hl
        subst hl0
        exact ⟨hb, h2l, s, hfm⟩
      · rw [if_neg hC] at he
        cases he
    · rintro ⟨hb, h2l, s, hfm⟩
      have hfold := argFold_of_firstMax (sduLens hs) l s hfm
      have hl : (pass1 conres0 hs).lcidMostData = l := by
        rw [hlcid, hfold]
      have hbf : (pass2 ueExists rnti0 hs).bsrReceived = false := by
        rw [hbsr]
        exact hb
      rw [hdef, hrnti, if_pos ⟨by simp [hbf], by omega⟩, hl]

/-- Claim C3 (amended, witness): the single-SDU PDU on LCID 3 with one
payload byte and no BSR CE yields the synthetic BSR (70, 3, 256). -/
theorem C3_synthetic_bsr_characterization_witness :
    (process_pdu exUeExists 70 exConres0 exC3Pdu).syntheticBsr =
      some ((process_pdu exUeExists 70 exConres0 exC3Pdu).rnti, 3, 256) :=
  ((C3_synthetic_bsr_characterization exUeExists 70 exConres0 exC3Pdu).2 3).mpr
    (by refine ⟨by decide, by decide, 1, [], [], by decide, by decide, by decide⟩)

/-- Claim C6: `ue::process_pdu` delivers each SDU payload to RLC unless
its LCID is 0 and every payload byte is zero (such all-zero CCCH PDUs are
discarded), and the contention-resolution identity ends up holding the
first six bytes, in reverse order, of the last delivered LCID-0 SDU of at
least six bytes (unchanged if there is none). -/
theorem C6_sdu_delivery_and_conres (ueExists : Nat → Bool) (rnti0 : Nat)
    (conres0 : Fin 6 → Nat) (hs : List SubHeader) :
    (process_pdu ueExists rnti0 conres0 hs).rlcWrites = deliveredSdus hs ∧
    ((conresSources hs).getLast? = none →
      (process_pdu ueExists rnti0 conres0 hs).conresId = conres0) ∧
    (∀ p, (conresSources hs).getLast? = some p →
      (process_pdu ueExists rnti0 conres0 hs).conresId =
        fun j : Fin 6 => p.getD (5 - j.val) 0) := by
  refine ⟨?_, ?_, ?_⟩
  · show (pass1 conres0 hs).rlcWrites = deliveredSdus hs
    unfold pass1
    rw [pass1_foldl_writes]
    simp
  · intro hn
    show (pass1 conres0 hs).conresId = conres0
    unfold pass1
    exact (pass1_foldl_conres hs _).1 hn
  · intro p hp
    show (pass1 conres0 hs).conresId = fun j : Fin 6 => p.getD (5 - j.val) 0
    unfold pass1
    exact (pass1_foldl_conres hs _).2 p hp

/-- Claim C6 (witness): a seven-byte LCID-0 SDU is delivered and its
first six bytes land reversed in the contention-resolution identity. -/
theorem C6_sdu_delivery_and_conres_witness :
    (process_pdu exUeExists 70 exConres0 exC6Pdu).rlcWrites = deliveredSdus exC6Pdu ∧
    (process_pdu exUeExists 70 exConres0 exC6Pdu).conresId =
      fun j : Fin 6 => [1, 2, 3, 4, 5, 6, 7].getD (5 - j.val) 0 :=
  ⟨(C6_sdu_delivery_and_conres exUeExists 70 exConres0 exC6Pdu).1,
   (C6_sdu_delivery_and_conres exUeExists 70 exConres0 exC6Pdu).2.2
     [1, 2, 3, 4, 5, 6, 7] (by decide)⟩

/-- Claim C5: `select_security_algorithms` fails exactly when no entry of
the EEA preference list is selectable or no entry of the EIA preference
list is selectable; on success it returns the first selectable entry of
each list; EIA0 is never selected; and EEA0 is always selectable. -/
theorem C5_select_security_algorithms_first_match (eeaPref : List CipherAlg)
    (eiaPref : List IntegAlg) (caps : SecCapabilities) :
    (select_security_algorithms eeaPref eiaPref caps = none ↔
      (∀ a ∈ eeaPref, cipherSelectable caps a = false) ∨
      (∀ a ∈ eiaPref, integSelectable caps a = false)) ∧
    (∀ c i, select_security_algorithms eeaPref eiaPref caps = some (c, i) →
      FirstSat (cipherSelectable caps) eeaPref c ∧
      FirstSat (integSelectable caps) eiaPref i ∧
      i ≠ IntegAlg.eia0) ∧
    cipherSelectable caps CipherAlg.eea0 = true := by
  refine ⟨?_, ?_, rfl⟩
  · unfold select_security_algorithms
    rw [selectCipher_eq_find, selectInteg_eq_find]
    cases hc : eeaPref.find? (cipherSelectable caps) with
    | none =>
      constructor
      · intro _
        left
        intro a ha
        simpa using List.find?_eq_none.mp hc a ha
      · intro _
        rfl
    | some c =>
      cases hi : eiaPref.find? (integSelectable caps) with
      | none =>
        constructor
        · intro _
          right
          intro a ha
          simpa using List.find?_eq_none.mp hi a ha
        · intro _
          rfl
      | some i =>
        constructor
        · intro h
          exact Option.noConfusion h
        · intro h
          rcases h with h | h
          · have hp := List.find?_some hc
            rw [h c (List.mem_of_find?_eq_some hc)] at hp
            cases hp
          · have hp := List.find?_some hi
            rw [h i (List.mem_of_find?_eq_some hi)] at hp
            cases hp
  · intro c i hsel
    unfold select_security_algorithms at hsel
    rw [selectCipher_eq_find, selectInteg_eq_find] at hsel
    cases hc : eeaPref.find? (cipherSelectable caps) with
    | none => rw [hc] at hsel; cases hsel
    | some c2 =>
      cases hi : eiaPref.find? (integSelectable caps) with
      | none => rw [hc, hi] at hsel; cases hsel
      | some i2 =>
        rw [hc, hi] at hsel
        have h2 := Option.some.inj hsel
        have hcc : c2 = c := congrArg Prod.fst h2
        have hii : i2 = i := congrArg Prod.snd h2
        subst hcc
        subst hii
        obtain ⟨hpc, pre, post, heq, hpre⟩ := List.find?_eq_some.mp hc
        obtain ⟨hpi, ipre, ipost, hieq, hipre⟩ := List.find?_eq_some.mp hi
        refine ⟨⟨pre, post, heq, hpc, fun b hb => by simpa using hpre b hb⟩,
                ⟨ipre, ipost, hieq, hpi, fun b hb => by simpa using hipre b hb⟩, ?_⟩
        intro hzero
        rw [hzero] at hpi
        cases hpi

/-- Claim C5 (witness): with capabilities supporting only EEA2/EIA2 and
preference lists `[EEA1, EEA2]`, `[EIA0, EIA2]`, the selection picks
EEA2 and EIA2 as first matches. -/
theorem C5_select_security_algorithms_witness :
    FirstSat (cipherSelectable exCaps) [CipherAlg.eea1, CipherAlg.eea2] CipherAlg.eea2 ∧
    FirstSat (integSelectable exCaps) [IntegAlg.eia0, IntegAlg.eia2] IntegAlg.eia2 ∧
    IntegAlg.eia2 ≠ IntegAlg.eia0 :=
  (C5_select_security_algorithms_first_match [CipherAlg.eea1, CipherAlg.eea2]
    [IntegAlg.eia0, IntegAlg.eia2] exCaps).2.1 CipherAlg.eea2 IntegAlg.eia2 (by decide)

/-- Claim C7 (counterexample): the reception of an UL-DCCH message
resets `transaction_id` to 0 (rrc.cc:1092), so a send, a reception and a
second send stamp the ids 0, 0 — not consecutive modulo 4. -/
theorem C7_ids_not_consecutive_across_reset :
    ¬ ConsecutiveMod4 (txIds 0 [TxEvent.sendMsg, TxEvent.recvUlDcch, TxEvent.sendMsg]) := by
  intro hC
  exact absurd (hC 0 (by decide)) (by decide)

/-- Claim C7 (amended): between two outgoing messages with no intervening
received UL-DCCH message the stamped transaction ids are consecutive
modulo 4, and every stamped id is below 4; a received UL-DCCH message
resets the counter to zero. -/
theorem C7_transaction_id_consecutive (tid n : Nat) :
    ConsecutiveMod4 (txIds tid (List.replicate n TxEvent.sendMsg)) ∧
    (∀ i ∈ txIds tid (List.replicate n TxEvent.sendMsg), i < 4) ∧
    txStep tid TxEvent.recvUlDcch = (0, none) := by
  rw [txIds_replicate]
  refine ⟨?_, ?_, rfl⟩
  · intro k hk
    simp only [List.length_map, List.length_range] at hk
    simp only [List.get_eq_getElem, List.getElem_map, List.getElem_range]
    omega
  · intro i hi
    simp only [List.mem_map, List.mem_range] at hi
    obtain ⟨k, _, rfl⟩ := hi
    omega

/-- Claim C7 (amended, witness): three consecutive sends from counter
value 5 stamp consecutive ids modulo 4. -/
theorem C7_transaction_id_consecutive_witness :
    ConsecutiveMod4 (txIds 5 (List.replicate 3 TxEvent.sendMsg)) ∧
    (∀ i ∈ txIds 5 (List.replicate 3 TxEvent.sendMsg), i < 4) ∧
    txStep 5 TxEvent.recvUlDcch = (0, none) :=
  C7_transaction_id_consecutive 5 3

/-- Claim C8: the grid counters are naturals (never negative), and
`sr_free` / `cqi_free` never decrement a counter that is already zero:
with the owning counter at zero the grid is returned unchanged (the
source only logs a warning). -/
theorem C8_free_never_decrements_zero_counter (h : ResHandle) (g : Grid)
    (hz : g h.prbIdx h.sfIdx = 0) :
    sr_free h g = g ∧ cqi_free h g = g := by
  constructor
  · unfold sr_free
    rw [hz]
    simp
  · unfold cqi_free
    rw [hz]
    simp

/-- Claim C8 (witness): freeing on the all-zero grid changes nothing. -/
theorem C8_free_never_decrements_zero_counter_witness :
    sr_free exHandle (fun _ _ => 0) = (fun _ _ => 0 : Grid) ∧
    cqi_free exHandle (fun _ _ => 0) = (fun _ _ => 0 : Grid) :=
  C8_free_never_decrements_zero_counter exHandle (fun _ _ => 0) rfl

/-- Claim C9: on a C-RNTI control element, `ue::process_ce` reassigns the
user's `rnti` and calls `rrc->upd_user` only under
`sched->ue_exists(old_rnti)`; if the old RNTI no longer exists, the
result state is unchanged and no call is emitted (only an error is
logged). -/
theorem C9_crnti_ce_guard (ueExists : Nat → Bool) (rnti oldRnti : Nat) :
    (ueExists oldRnti = false →
      process_ce ueExists rnti (UlCe.crnti oldRnti) =
        { rnti := rnti, updUserCall := none, ulBsrCalls := [], ulPhrCall := none,
          is_bsr := false }) ∧
    (ueExists oldRnti = true →
      (process_ce ueExists rnti (UlCe.crnti oldRnti)).rnti = oldRnti ∧
      (process_ce ueExists rnti (UlCe.crnti oldRnti)).updUserCall = some (rnti, oldRnti)) := by
  constructor
  · intro h
    simp [process_ce, h]
  · intro h
    simp [process_ce, h]

/-- Claim C9 (witness): with a scheduler that knows no RNTI, the C-RNTI
CE for old RNTI 71 leaves the state for RNTI 70 unchanged. -/
theorem C9_crnti_ce_guard_witness :
    process_ce (fun _ => false) 70 (UlCe.crnti 71) =
      { rnti := 70, updUserCall := none, ulBsrCalls := [], ulPhrCall := none,
        is_bsr := false } :=
  (C9_crnti_ce_guard (fun _ => false) 70 71).1 rfl

/-- Claim C10: `get_rx_softbuffer` and `get_tx_softbuffer` return `none`
for a carrier index at or beyond the number of allocated carrier buffer
sets; for in-range carriers (with each carrier holding `nof` buffers, as
`allocate_cc_buffers` sets up, and a positive `nof`), the buffer index is
reduced modulo `nof` and the returned buffer is the allocated one at that
index. -/
theorem C10_softbuffer_lookup_safe {α : Type} (nof : Nat) (bufs : List (List α))
    (cc tti harq tb : Nat) (hn : 0 < nof) (hrows : ∀ row ∈ bufs, row.length = nof) :
    (cc ≥ bufs.length →
      get_rx_softbuffer nof bufs cc tti = none ∧
      get_tx_softbuffer nof bufs cc harq tb = none) ∧
    (cc < bufs.length →
      tti % nof < (bufs.getD cc []).length ∧
      (harq * SRSLTE_MAX_TB + tb) % nof < (bufs.getD cc []).length ∧
      get_rx_softbuffer nof bufs cc tti = (bufs.getD cc [])[tti % nof]? ∧
      get_tx_softbuffer nof bufs cc harq tb =
        (bufs.getD cc [])[(harq * SRSLTE_MAX_TB + tb) % nof]? ∧
      (get_rx_softbuffer nof bufs cc tti).isSome = true ∧
      (get_tx_softbuffer nof bufs cc harq tb).isSome = true) := by
  constructor
  · intro hcc
    constructor
    · unfold get_rx_softbuffer
      rw [if_pos hcc]
    · unfold get_tx_softbuffer
      rw [if_pos hcc]
  · intro hcc
    have hrow : (bufs.getD cc []).length = nof := by
      have hget : bufs.getD cc [] = bufs[cc] := List.getD_eq_getElem bufs [] hcc
      rw [hget]
      exact hrows bufs[cc] (List.getElem_mem hcc)
    have h1 : tti % nof < (bufs.getD cc []).length := by
      rw [hrow]
      exact Nat.mod_lt _ hn
    have h2 : (harq * SRSLTE_MAX_TB + tb) % nof < (bufs.getD cc []).length := by
      rw [hrow]
      exact Nat.mod_lt _ hn
    have hrx : get_rx_softbuffer nof bufs cc tti = (bufs.getD cc [])[tti % nof]? := by
      unfold get_rx_softbuffer
      rw [if_neg (by omega), if_neg (by omega)]
    have htx : get_tx_softbuffer nof bufs cc harq tb =
        (bufs.getD cc [])[(harq * SRSLTE_MAX_TB + tb) % nof]? := by
      unfold get_tx_softbuffer
      rw [if_neg (by omega), if_neg (by omega)]
    refine ⟨h1, h2, hrx, htx, ?_, ?_⟩
    · rw [hrx, List.getElem?_eq_getElem h1]
      rfl
    · rw [htx, List.getElem?_eq_getElem h2]
      rfl

/-- Claim C10 (witness): with one carrier of eight buffers, TTI 13 maps
to buffer index 5 and HARQ process 3, TB 1 maps to tx index 7. -/
theorem C10_softbuffer_lookup_safe_witness :
    get_rx_softbuffer 8 exBufs 0 13 = some 15 ∧
    get_tx_softbuffer 8 exBufs 0 3 1 = some 17 := by
  have h := (C10_softbuffer_lookup_safe 8 exBufs 0 13 3 1 (by decide) (by decide)).2
    (by decide)
  constructor
  · rw [h.2.2.1]
    decide
  · rw [h.2.2.2.1]
    decide

end SrsEnb
